import Mathlib

/-!
Verification of the resilient batch transfer engine of the
github-repos-downloader repository.

The development shallowly embeds the relevant source functions:

* `validArchive`, `downloadWithCurl` embed the integrity check and the
  disk behaviour of `RepositoriesManager._download_with_curl`
  (`src/utils/repo_manager.py`).
* `chooseDispatchMode`, `resolveMaxWorkers` embed
  `RepositoriesManager._download_items` and `RepositoriesManager.__init__`.
* `tryPage`, `fetchPages`, `fetchData`, `makeRequestWithRetry` embed
  `GitHubDataMaster._fetch_data` and
  `GitHubDataMaster._make_request_with_retry` (`src/utils/github_tools.py`).
* `downloadSingleArchive`, `initialPass`, `runWave`, `retryLoop`,
  `downloadItemsAll` embed the orchestrator pipeline
  (`_download_sequentially` / `_download_parallel` followed by
  `_retry_failed_items` / `_retry_failed_items_parallel`); the parallel
  paths are sequentialized (one worker interleaving), which preserves the
  per-item bookkeeping because every ledger/counter mutation in the source
  is performed under a single lock.
* `repoArchiveUrl`, `gistArchiveUrl`, `appRepoDownloadUrl`,
  `gistApiFallbackUrl` embed the URL constructions of
  `_download_single_archive`, `_download_single_gist` and
  `AppManager._get_download_url`.

Network, subprocess and filesystem effects are abstracted as explicit
oracle parameters; everything else follows the Python control flow.
-/

namespace GithubBackup

abbrev ItemId := String
abbrev Url := String
abbrev Detail := String

/-- The first four bytes of a ZIP local file header, `b"PK\x03\x04"` in the
source (`repo_manager.py` line 326). -/
def zipSignature : List Nat := [0x50, 0x4B, 0x03, 0x04]

/-- The integrity check applied to a downloaded file in
`_download_with_curl` (`repo_manager.py` lines 323-327): the file must
exist, be strictly larger than 100 bytes, and its first four bytes must be
the ZIP signature.  A file is modelled as `Option (List Nat)`: `none` when
no file exists at the path, `some bytes` otherwise. -/
def validArchive : Option (List Nat) → Bool
  | none => false
  | some bytes => decide (100 < bytes.length) && (bytes.take 4 == zipSignature)

/-- Outcome of one `curl` subprocess run, together with the file contents
left at the destination path when the subprocess finished.  `ok code w`
models `subprocess.run` returning exit code `code` having written `w`
(`none` when curl wrote nothing); `timeout` models
`subprocess.TimeoutExpired`; `exn` models any other exception raised
inside the `try` block. -/
inductive CurlResult where
  | ok (code : Nat) (written : Option (List Nat))
  | timeout (written : Option (List Nat))
  | exn (written : Option (List Nat))
deriving DecidableEq, Repr

/-- `RepositoriesManager._download_with_curl` (`repo_manager.py` lines
292-351), as a function from the curl outcome and the prior disk contents
at the destination path to the returned Bool and the disk contents after
the call.  The function first removes any existing file (lines 294-295),
so the prior contents never influence the result; on exit code 0 it runs
the integrity check, removing the file only on a signature mismatch (line
331); on a nonzero exit code or a timeout it returns `False` without
touching the file; on any other exception it removes the file (lines
349-350). -/
def downloadWithCurl (curl : CurlResult) (_disk0 : Option (List Nat)) :
    Bool × Option (List Nat) :=
  match curl with
  | .timeout w => (false, w)
  | .exn _ => (false, none)
  | .ok code w =>
    if code = 0 then
      match w with
      | some bytes =>
        if 100 < bytes.length then
          if bytes.take 4 = zipSignature then (true, some bytes)
          else (false, none)
        else (false, some bytes)
      | none => (false, none)
    else (false, w)

/-- A 50-byte file that begins with the correct ZIP signature. -/
def fiftyByteFile : List Nat := zipSignature ++ List.replicate 46 0

/-- The dispatch mode chosen by `_download_items`. -/
inductive DispatchMode where
  | sequential
  | parallel (workers : Nat)
deriving DecidableEq, Repr

/-- `RepositoriesManager._download_items` (`repo_manager.py` lines 68-74):
sequential when the batch has at most 5 items or at most one worker is
configured, otherwise a pool of exactly `maxWorkers` workers. -/
def chooseDispatchMode (numItems maxWorkers : Nat) : DispatchMode :=
  if numItems ≤ 5 ∨ maxWorkers ≤ 1 then .sequential else .parallel maxWorkers

/-- `RepositoriesManager.__init__` (`repo_manager.py` lines 27-34): an
explicit `max_workers` argument is used as given; with no argument the
worker count is `max(1, cpu_count - 1)`, falling back to 4 when the CPU
count cannot be determined (`cpuCount = none`). -/
def resolveMaxWorkers (maxWorkersArg : Option Nat) (cpuCount : Option Nat) : Nat :=
  match maxWorkersArg with
  | some w => w
  | none =>
    match cpuCount with
    | some cpu => max 1 (cpu - 1)
    | none => 4

/-- The authenticated client state shared by the managers: the optional
token of `GitHubDataMaster` and the login fetched for the user. -/
structure Client where
  token : Option String
  login : String

/-- Python truthiness of the token attribute, as tested by
`hasattr(self.github_client, token) and self.github_client.token`:
the attribute always exists on `GitHubDataMaster`, so the test reduces to
the token being neither `None` nor the empty string. -/
def tokenTruthy : Option String → Bool
  | some s => !(s == "")
  | none => false

/-- `full_repo_name` as computed in `_download_single_archive`
(`repo_manager.py` lines 247-250): the name itself when it already
contains a slash, otherwise `login/name`. -/
def fullRepoName (login name : String) : String :=
  if name.toList.contains '/' then name else login ++ "/" ++ name

/-- The archive URL built by `_download_single_archive`
(`repo_manager.py` lines 252-255 for `branch = "main"` and lines 271-274
for `branch = "master"`): the raw token is embedded as the userinfo
component exactly when it is truthy. -/
def repoArchiveUrl (c : Client) (fullName branch : String) : Url :=
  if tokenTruthy c.token then
    "https://" ++ c.token.getD "" ++ "@github.com/" ++ fullName
      ++ "/archive/refs/heads/" ++ branch ++ ".zip"
  else
    "https://github.com/" ++ fullName ++ "/archive/refs/heads/" ++ branch ++ ".zip"

/-- The gist archive URL built by `GistsManager._download_single_gist`
(`gists_manager.py` lines 249-252) and, identically, by
`AppManager._get_download_url` for gists (`managers.py` lines 189-192). -/
def gistArchiveUrl (c : Client) (gistId : String) : Url :=
  if tokenTruthy c.token then
    "https://" ++ c.token.getD "" ++ "@gist.github.com/" ++ c.login ++ "/"
      ++ gistId ++ "/archive/master.zip"
  else
    "https://gist.github.com/" ++ c.login ++ "/" ++ gistId ++ "/archive/master.zip"

/-- `full_repo_name` as computed in `AppManager._get_download_url`
(`managers.py` lines 171-174). -/
def appFullRepoName (name : String) : String :=
  if name.toList.contains '/' then name else "aixandrolab/" ++ name

/-- The repository download URL built by `AppManager._get_download_url`
(`managers.py` lines 176-179); note the `master.zip` form without
`refs/heads`. -/
def appRepoDownloadUrl (c : Client) (name : String) : Url :=
  if tokenTruthy c.token then
    "https://" ++ c.token.getD "" ++ "@github.com/" ++ appFullRepoName name
      ++ "/archive/master.zip"
  else
    "https://github.com/" ++ appFullRepoName name ++ "/archive/master.zip"

/-- Replace every non-overlapping occurrence of `pat` left to right, the
semantics of Python `str.replace`; `fuel` is an upper bound on the number
of characters consumed (taking the length of the subject suffices for a
non-empty pattern). -/
def replaceAllAux (pat rep : List Char) : Nat → List Char → List Char
  | 0, s => s
  | _ + 1, [] => []
  | fuel + 1, c :: rest =>
    if pat.isPrefixOf (c :: rest) then
      rep ++ replaceAllAux pat rep fuel ((c :: rest).drop pat.length)
    else c :: replaceAllAux pat rep fuel rest

/-- Python `s.replace(pat, rep)`. -/
def pythonReplace (s pat rep : String) : String :=
  ⟨replaceAllAux pat.toList rep.toList s.toList.length s.toList⟩

/-- The fallback archive URL constructed by `_download_single_gist` from
the `git_pull_url` field of the gist metadata fetched from the API
(`gists_manager.py` lines 268-283).  The whole fallback branch is guarded
by the token being truthy; the URL itself is
the result of replacing, in `git_pull_url`, every occurrence of `.git`
by `/archive/master.zip`; it is attempted only when `git_pull_url`
contains the substring `/gist.github.com/`. -/
def gistApiFallbackUrl (c : Client) (gitPullUrl : String) : Option Url :=
  if tokenTruthy c.token then
    if List.IsInfix "/gist.github.com/".toList gitPullUrl.toList then
      some (pythonReplace gitPullUrl ".git" "/archive/master.zip")
    else none
  else none

/-- One attempt at one catalog page inside `_fetch_data`
(`github_tools.py` lines 98-127): either HTTP 200 with a parsed JSON list
of items (already keyed by `full_name`), or one of the failure modes the
`except` clauses distinguish.  `badStatus` is the `response.status != 200`
branch that raises and is caught by the generic handler. -/
inductive PageAttempt where
  | ok (items : List (String × String))
  | badStatus (code : Nat)
  | httpErr (code : Nat)
  | urlErr
  | otherErr
deriving DecidableEq, Repr

/-- A catalog dictionary: insertion-ordered association list keyed by the
item id, mirroring a Python `dict`. -/
abbrev Catalog := List (String × String)

/-- Python `data_dict[key] = value`: overwrite in place when the key is
present, append otherwise. -/
def dictInsert (d : Catalog) (k : String) (v : String) : Catalog :=
  if d.any (fun p => p.1 == k) then
    d.map (fun p => if p.1 == k then (k, v) else p)
  else d ++ [(k, v)]

/-- The `for item in data:` loop body of `_fetch_data`: insert every item
of a page into the dictionary, in page order. -/
def dictInsertAll (d : Catalog) (items : List (String × String)) : Catalog :=
  items.foldl (fun acc kv => dictInsert acc kv.1 kv.2) d

/-- The inner retry loop of `_fetch_data` (`while retries < max_retries`),
with `fuel` the number of attempts still allowed and `attempt` the current
value of `retries`.  Returns the parsed page on the first successful
attempt, `none` when the budget is exhausted.  Every failure mode —
including an HTTP 401 — falls through to the retry increment
(`github_tools.py` lines 122-134). -/
def tryPageAux (resp : Nat → Nat → PageAttempt) (page : Nat) :
    Nat → Nat → Option (List (String × String))
  | 0, _ => none
  | fuel + 1, attempt =>
    match resp page attempt with
    | .ok items => some items
    | _ => tryPageAux resp page fuel (attempt + 1)

/-- All `max_retries` attempts at one page, starting from `retries = 0`. -/
def tryPage (resp : Nat → Nat → PageAttempt) (page maxRetries : Nat) :
    Option (List (String × String)) :=
  tryPageAux resp page maxRetries 0

/-- The outer page loop of `_fetch_data` (`github_tools.py` lines
95-138), with explicit fuel for the unbounded `while True`.  A page whose
retries are exhausted, or which returns an empty list, ends the fetch
with the accumulated dictionary as a normal value; a successful non-empty
page is folded into the dictionary and the next page is requested. -/
def fetchPages (resp : Nat → Nat → PageAttempt) (maxRetries : Nat) :
    Nat → Nat → Catalog → Option Catalog
  | 0, _, _ => none
  | fuel + 1, page, acc =>
    match tryPage resp page maxRetries with
    | none => some acc
    | some items =>
      if items.isEmpty then some acc
      else fetchPages resp maxRetries fuel (page + 1) (dictInsertAll acc items)

/-- `GitHubDataMaster._fetch_data`, starting at page 1 with an empty
dictionary.  `none` means only that the modelling fuel ran out. -/
def fetchData (resp : Nat → Nat → PageAttempt) (maxRetries fuel : Nat) :
    Option Catalog :=
  fetchPages resp maxRetries fuel 1 []

/-- One attempt inside `_make_request_with_retry` (`github_tools.py`
lines 41-62). -/
inductive ReqResult where
  | success (data : String)
  | badStatus (code : Nat)
  | httpErr (code : Nat)
  | urlErr
  | otherErr
deriving DecidableEq, Repr

/-- Whether a failed attempt falls through to the retry increment in
`_make_request_with_retry`: every failure does, except an HTTP 401 which
returns `None` at once (`github_tools.py` lines 55-58). -/
def reqRetriable : ReqResult → Bool
  | .success _ => false
  | .httpErr code => !(code == 401)
  | _ => true

/-- The retry loop of `_make_request_with_retry` (`github_tools.py`
lines 34-71): `fuel` is the remaining attempt budget, `attempt` the
current `retries` value.  An HTTP 401 returns `None` immediately; all
other failures retry. -/
def makeRequestAux (resp : Nat → ReqResult) : Nat → Nat → Option String
  | 0, _ => none
  | fuel + 1, attempt =>
    match resp attempt with
    | .success d => some d
    | .httpErr code =>
      if code = 401 then none else makeRequestAux resp fuel (attempt + 1)
    | _ => makeRequestAux resp fuel (attempt + 1)

/-- `GitHubDataMaster._make_request_with_retry`. -/
def makeRequestWithRetry (resp : Nat → ReqResult) (maxRetries : Nat) :
    Option String :=
  makeRequestAux resp maxRetries 0

/-- The per-item metadata record stored in the catalog dictionary
(`ssh_url`, `archive_url`, `updated_at`); only `archive_url` is read by
the orchestrator (as the failure detail), so the other fields are
omitted. -/
structure ItemData where
  archive_url : String
deriving DecidableEq, Repr

/-- The mutable bookkeeping of one batch run: the ids that succeeded this
run (the `success_count` counter, kept as a list so that membership can be
stated), the failure ledger `failed_dict` in insertion order, and an
instrumentation log with one entry per invocation of the per-item
download routine, recording the URLs that invocation attempted. -/
structure BatchState where
  succeeded : List ItemId
  ledger : List (ItemId × Detail)
  log : List (ItemId × List Url)
deriving DecidableEq, Repr

/-- `RepositoriesManager._download_single_archive` (`repo_manager.py`
lines 242-290): try the `main` branch archive URL, and on failure the
`master` branch URL.  The combined transport-plus-validation outcome of
`_download_with_curl` for a URL at a given wave is abstracted as the
oracle `net`; the returned list records the URLs attempted, the second
entry being the fallback attempt. -/
def downloadSingleArchive (net : Url → Nat → Bool) (c : Client)
    (name : ItemId) (wave : Nat) : Bool × List Url :=
  let mainUrl := repoArchiveUrl c (fullRepoName c.login name) "main"
  if net mainUrl wave then (true, [mainUrl])
  else
    let masterUrl := repoArchiveUrl c (fullRepoName c.login name) "master"
    (net masterUrl wave, [mainUrl, masterUrl])

/-- The first pass of `_download_sequentially` (`repo_manager.py` lines
76-98): every item is attempted once (wave 0); a failing item is appended
to the ledger with its `archive_url` as detail.  The parallel first pass
of `_download_parallel` performs the same per-item bookkeeping under one
lock and is modelled by the same function. -/
def initialPass (net : Url → Nat → Bool) (c : Client) :
    List (ItemId × ItemData) → BatchState → BatchState
  | [], st => st
  | (name, d) :: rest, st =>
    let r := downloadSingleArchive net c name 0
    if r.1 then
      initialPass net c rest
        { st with succeeded := st.succeeded ++ [name], log := st.log ++ [(name, r.2)] }
    else
      initialPass net c rest
        { st with ledger := st.ledger ++ [(name, d.archive_url)]
                , log := st.log ++ [(name, r.2)] }

/-- The body of one retry wave (`_retry_failed_items`, `repo_manager.py`
lines 370-386): iterate over the snapshot of the ledger taken at the
start of the wave; an id whose data is missing from the item lookup is
re-added with its detail unchanged and its download routine is not
invoked; otherwise the routine runs and the id is re-added only on
failure. -/
def runWaveAux (net : Url → Nat → Bool) (c : Client)
    (lookup : ItemId → Option ItemData) (wave : Nat) :
    List (ItemId × Detail) → BatchState → BatchState
  | [], st => st
  | (name, url) :: rest, st =>
    match lookup name with
    | none =>
      runWaveAux net c lookup wave rest
        { st with ledger := st.ledger ++ [(name, url)] }
    | some _ =>
      let r := downloadSingleArchive net c name wave
      if r.1 then
        runWaveAux net c lookup wave rest
          { st with succeeded := st.succeeded ++ [name], log := st.log ++ [(name, r.2)] }
      else
        runWaveAux net c lookup wave rest
          { st with ledger := st.ledger ++ [(name, url)], log := st.log ++ [(name, r.2)] }

/-- One retry wave: `current_failed = remaining_failed.copy();
remaining_failed = {}` followed by the wave body. -/
def runWave (net : Url → Nat → Bool) (c : Client)
    (lookup : ItemId → Option ItemData) (wave : Nat) (st : BatchState) :
    BatchState :=
  runWaveAux net c lookup wave st.ledger { st with ledger := [] }

/-- The wave loop of `_retry_failed_items` (`repo_manager.py` lines
361-391): up to `fuel = max_retries` additional passes, stopping as soon
as the ledger is empty at the start of a pass.  `wave` numbers the passes
(the first retry pass is wave 1, the initial pass being wave 0). -/
def retryLoop (net : Url → Nat → Bool) (c : Client)
    (lookup : ItemId → Option ItemData) :
    Nat → Nat → BatchState → BatchState
  | 0, _, st => st
  | fuel + 1, wave, st =>
    if st.ledger.isEmpty then st
    else retryLoop net c lookup fuel (wave + 1) (runWave net c lookup wave st)

/-- The number of retry passes the wave loop actually executes, mirroring
the control flow of `retryLoop`. -/
def wavesRun (net : Url → Nat → Bool) (c : Client)
    (lookup : ItemId → Option ItemData) :
    Nat → Nat → BatchState → Nat
  | 0, _, _ => 0
  | fuel + 1, wave, st =>
    if st.ledger.isEmpty then 0
    else wavesRun net c lookup fuel (wave + 1) (runWave net c lookup wave st) + 1

/-- The full batch pipeline: the initial pass over all items followed by
the retry waves (`_download_sequentially` lines 76-103 composed with
`_retry_failed_items`; the retry loop is entered only when the ledger is
non-empty, exactly as in the source). -/
def downloadItemsAll (net : Url → Nat → Bool) (c : Client)
    (lookup : ItemId → Option ItemData) (maxWaves : Nat)
    (items : List (ItemId × ItemData)) : BatchState :=
  let st := initialPass net c items ⟨[], [], []⟩
  if st.ledger.isEmpty then st else retryLoop net c lookup maxWaves 1 st

/-- C5: the integrity validation returns false when the file is missing or
has size at most 100 bytes, false when its first 4 bytes differ from
`0x50 0x4B 0x03 0x04`, and true exactly when the file exists, is larger
than 100 bytes and starts with that signature; in particular a 50-byte
file with correct magic bytes fails validation.  The last conjunct ties
the isolated validator to the code path inside `_download_with_curl`. -/
theorem validArchive_spec :
    (∀ file, validArchive file = true ↔
      ∃ bytes, file = some bytes ∧ 100 < bytes.length ∧ bytes.take 4 = zipSignature)
    ∧ validArchive none = false
    ∧ (∀ bytes, bytes.length ≤ 100 → validArchive (some bytes) = false)
    ∧ (∀ bytes, bytes.take 4 ≠ zipSignature → validArchive (some bytes) = false)
    ∧ (fiftyByteFile.length = 50 ∧ fiftyByteFile.take 4 = zipSignature
        ∧ validArchive (some fiftyByteFile) = false)
    ∧ (∀ w d, (downloadWithCurl (.ok 0 w) d).1 = validArchive w) := by
  refine ⟨?_, rfl, ?_, ?_, by decide, ?_⟩
  · intro file
    cases file with
    | none => simp [validArchive]
    | some bytes => simp [validArchive]
  · intro bytes h
    simp [validArchive]
    intro h'
    omega
  · intro bytes h
    simp [validArchive, h]
  · intro w d
    cases w with
    | none => rfl
    | some bytes =>
      by_cases h1 : 100 < bytes.length
      · by_cases h2 : bytes.take 4 = zipSignature
        · simp [downloadWithCurl, validArchive, h1, h2]
        · simp [downloadWithCurl, validArchive, h1, h2]
      · simp [downloadWithCurl, validArchive, h1]

/-- Witness for C5: a 104-byte file with the correct signature validates. -/
theorem validArchive_spec_witness :
    validArchive (some (zipSignature ++ List.replicate 100 0)) = true :=
  (validArchive_spec.1 _).mpr ⟨_, rfl, by decide, by decide⟩

/-- C6: the sequential path is taken if and only if the batch has at most
5 items or the worker limit is at most 1; otherwise the pool has exactly
`maxWorkers` workers; the default worker limit is the CPU count minus
one, floored at 1. -/
theorem dispatch_mode_spec :
    (∀ n w, chooseDispatchMode n w = .sequential ↔ n ≤ 5 ∨ w ≤ 1)
    ∧ (∀ n w, 5 < n → 1 < w → chooseDispatchMode n w = .parallel w)
    ∧ (∀ cpu, resolveMaxWorkers none (some cpu) = max 1 (cpu - 1))
    ∧ (∀ cpu, 1 ≤ resolveMaxWorkers none (some cpu)) := by
  refine ⟨?_, ?_, fun cpu => rfl, ?_⟩
  · intro n w
    by_cases h : n ≤ 5 ∨ w ≤ 1 <;> simp [chooseDispatchMode, h]
  · intro n w h1 h2
    have h : ¬ (n ≤ 5 ∨ w ≤ 1) := by omega
    simp [chooseDispatchMode, h]
  · intro cpu
    simp [resolveMaxWorkers]

/-- Witness for C6: a batch of 7 items with 3 workers dispatches to a
pool of exactly 3. -/
theorem dispatch_mode_spec_witness :
    chooseDispatchMode 7 3 = .parallel 3 :=
  dispatch_mode_spec.2.1 7 3 (by decide) (by decide)

/-- Counterexample for C7: a failed attempt can leave a partial file on
disk.  When curl exits 0 but delivered only 50 bytes, the routine
returns failure without removing the file: the partial file remains at
the destination path. -/
theorem downloadWithCurl_partial_file_remains_cex :
    (downloadWithCurl (.ok 0 (some fiftyByteFile)) none).1 = false
    ∧ (downloadWithCurl (.ok 0 (some fiftyByteFile)) none).2 = some fiftyByteFile
    ∧ some fiftyByteFile ≠ (none : Option (List Nat)) := by decide

/-- C7 (amended): after a failed attempt the destination file is removed
only when the failure is a signature mismatch or an in-routine exception;
after a nonzero curl exit, a timeout, or an undersized (at most 100
bytes) download the partially-written file remains on disk, and is only
removed by the pre-download cleanup of a subsequent attempt (the result
never depends on the prior disk contents, which are deleted first). -/
theorem downloadWithCurl_cleanup_spec :
    (∀ d bytes, 100 < bytes.length → bytes.take 4 ≠ zipSignature →
        downloadWithCurl (.ok 0 (some bytes)) d = (false, none))
    ∧ (∀ d w, downloadWithCurl (.exn w) d = (false, none))
    ∧ (∀ d bytes, bytes.length ≤ 100 →
        downloadWithCurl (.ok 0 (some bytes)) d = (false, some bytes))
    ∧ (∀ d code w, code ≠ 0 → downloadWithCurl (.ok code w) d = (false, w))
    ∧ (∀ d w, downloadWithCurl (.timeout w) d = (false, w))
    ∧ (∀ curl d d', downloadWithCurl curl d = downloadWithCurl curl d') := by
  refine ⟨?_, fun d w => rfl, ?_, ?_, fun d w => rfl, fun curl d d' => rfl⟩
  · intro d bytes h1 h2
    simp [downloadWithCurl, h1, h2]
  · intro d bytes h
    have h' : ¬ (100 < bytes.length) := by omega
    simp [downloadWithCurl, h']
  · intro d code w h
    simp [downloadWithCurl, h]

set_option maxRecDepth 4000 in
/-- Witness for C7 (amended): an oversized file with a wrong signature is
removed after the failed attempt. -/
theorem downloadWithCurl_cleanup_spec_witness :
    downloadWithCurl (.ok 0 (some (List.replicate 200 7))) none = (false, none) :=
  downloadWithCurl_cleanup_spec.1 none (List.replicate 200 7) (by decide) (by decide)

/-- Merging two adjacent string literals inside an append chain. -/
theorem strMerge (a b c : String) (h : a ++ b = c) (x : String) :
    a ++ (b ++ x) = c ++ x := by
  rw [← String.append_assoc, h]

set_option maxRecDepth 16000 in
/-- Counterexample for C10: with a truthy token, the gist per-item routine
constructs a fallback download URL (from the `git_pull_url` returned by
the API) that does not embed the token anywhere — and, because
`str.replace` rewrites every occurrence of `.git` including the one
inside `gist.github.com`, the constructed URL is mangled as well. -/
theorem gistFallbackUrl_no_token_cex :
    tokenTruthy (some "SECRET") = true
    ∧ gistApiFallbackUrl ⟨some "SECRET", "alice"⟩ "https://gist.github.com/alice/abc123.git"
        = some "https://gist/archive/master.ziphub.com/alice/abc123/archive/master.zip"
    ∧ ¬ List.IsInfix "SECRET".toList
        "https://gist/archive/master.ziphub.com/alice/abc123/archive/master.zip".toList := by
  refine ⟨rfl, by decide, by decide⟩

/-- C10 (amended): the archive URLs built by
`RepositoriesManager._download_single_archive` (main and master branch),
`GistsManager._download_single_gist` (primary), and
`AppManager._get_download_url` (repositories and gists) embed the raw
token as the userinfo component when the token is truthy, and are built
without any userinfo component when the token is missing or empty — in
each case with an identical remainder after the scheme; the API-derived
gist fallback URL, however, never embeds the token (it does not depend on
the token value at all). -/
theorem download_urls_token_userinfo :
    ∀ t : String, t ≠ "" →
    (∀ login name branch,
        repoArchiveUrl ⟨some t, login⟩ name branch
          = "https://" ++ t ++ "@"
            ++ ("github.com/" ++ name ++ "/archive/refs/heads/" ++ branch ++ ".zip")
        ∧ repoArchiveUrl ⟨none, login⟩ name branch
          = "https://" ++ ("github.com/" ++ name ++ "/archive/refs/heads/" ++ branch ++ ".zip")
        ∧ repoArchiveUrl ⟨some "", login⟩ name branch
          = "https://" ++ ("github.com/" ++ name ++ "/archive/refs/heads/" ++ branch ++ ".zip"))
    ∧ (∀ login gistId,
        gistArchiveUrl ⟨some t, login⟩ gistId
          = "https://" ++ t ++ "@"
            ++ ("gist.github.com/" ++ login ++ "/" ++ gistId ++ "/archive/master.zip")
        ∧ gistArchiveUrl ⟨none, login⟩ gistId
          = "https://" ++ ("gist.github.com/" ++ login ++ "/" ++ gistId ++ "/archive/master.zip")
        ∧ gistArchiveUrl ⟨some "", login⟩ gistId
          = "https://" ++ ("gist.github.com/" ++ login ++ "/" ++ gistId ++ "/archive/master.zip"))
    ∧ (∀ login name,
        appRepoDownloadUrl ⟨some t, login⟩ name
          = "https://" ++ t ++ "@" ++ ("github.com/" ++ appFullRepoName name ++ "/archive/master.zip")
        ∧ appRepoDownloadUrl ⟨none, login⟩ name
          = "https://" ++ ("github.com/" ++ appFullRepoName name ++ "/archive/master.zip")
        ∧ appRepoDownloadUrl ⟨some "", login⟩ name
          = "https://" ++ ("github.com/" ++ appFullRepoName name ++ "/archive/master.zip"))
    ∧ (∀ t' login login' pull, t' ≠ "" →
        gistApiFallbackUrl ⟨some t, login⟩ pull = gistApiFallbackUrl ⟨some t', login'⟩ pull) := by
  intro t ht
  have htt : tokenTruthy (some t) = true := by simp [tokenTruthy, ht]
  refine ⟨?_, ?_, ?_, ?_⟩
  · intro login name branch
    refine ⟨?_, ?_, ?_⟩
    · simp only [repoArchiveUrl, htt, if_pos, Option.getD_some]
      simp [String.append_assoc, strMerge "@" "github.com/" "@github.com/" rfl]
    · simp only [repoArchiveUrl, tokenTruthy, Bool.false_eq_true, if_neg]
      simp [String.append_assoc, strMerge "https://" "github.com/" "https://github.com/" rfl]
    · simp only [repoArchiveUrl, tokenTruthy]
      simp [String.append_assoc, strMerge "https://" "github.com/" "https://github.com/" rfl]
  · intro login gistId
    refine ⟨?_, ?_, ?_⟩
    · simp only [gistArchiveUrl, htt, if_pos, Option.getD_some]
      simp [String.append_assoc, strMerge "@" "gist.github.com/" "@gist.github.com/" rfl]
    · simp only [gistArchiveUrl, tokenTruthy, Bool.false_eq_true, if_neg]
      simp [String.append_assoc,
        strMerge "https://" "gist.github.com/" "https://gist.github.com/" rfl]
    · simp only [gistArchiveUrl, tokenTruthy]
      simp [String.append_assoc,
        strMerge "https://" "gist.github.com/" "https://gist.github.com/" rfl]
  · intro login name
    refine ⟨?_, ?_, ?_⟩
    · simp only [appRepoDownloadUrl, htt, if_pos, Option.getD_some]
      simp [String.append_assoc, strMerge "@" "github.com/" "@github.com/" rfl]
    · simp only [appRepoDownloadUrl, tokenTruthy, Bool.false_eq_true, if_neg]
      simp [String.append_assoc, strMerge "https://" "github.com/" "https://github.com/" rfl]
    · simp only [appRepoDownloadUrl, tokenTruthy]
      simp [String.append_assoc, strMerge "https://" "github.com/" "https://github.com/" rfl]
  · intro t' login login' pull ht'
    have htt' : tokenTruthy (some t') = true := by simp [tokenTruthy, ht']
    simp [gistApiFallbackUrl, htt, htt']

/-- Witness for C10 (amended): a concrete tokened main-branch URL. -/
theorem download_urls_token_userinfo_witness :
    repoArchiveUrl ⟨some "TOKEN", "alice"⟩ "alice/repo" "main"
      = "https://" ++ "TOKEN" ++ "@"
        ++ ("github.com/" ++ "alice/repo" ++ "/archive/refs/heads/" ++ "main" ++ ".zip") :=
  ((download_urls_token_userinfo "TOKEN" (by decide)).1 "alice" "alice/repo" "main").1

/-- A page-response oracle under which page 1 returns HTTP 401 on its
first attempt, succeeds on any later attempt, and page 2 is the empty
terminal page. -/
def authRetryResp (page attempt : Nat) : PageAttempt :=
  if page = 1 then
    (if attempt = 0 then .httpErr 401 else .ok [("alice/repo", "payload")])
  else .ok []

/-- Counterexample for C2: in the paged catalog fetch a 401 page response
is retried and does not abort the fetch.  Under `authRetryResp` the first
attempt at page 1 is a 401, yet the fetch retries the page, obtains its
entries on the second attempt, and completes normally with those entries
— the result is not the empty accumulation an immediate abort would have
produced. -/
theorem fetchData_retries_auth_error_cex :
    authRetryResp 1 0 = .httpErr 401
    ∧ fetchData authRetryResp 3 10 = some [("alice/repo", "payload")]
    ∧ some [("alice/repo", "payload")] ≠ some ([] : Catalog) := by
  refine ⟨rfl, by decide, by decide⟩

/-- C2 (amended): inside `_fetch_data` an HTTP error — 401 included — on
a page attempt is handled exactly like a transient network error: the
attempt counter advances and the page is retried; only
`_make_request_with_retry` (used for the user-data request) treats 401
specially, returning `None` at once without consuming further attempts,
regardless of what any later attempt would have returned. -/
theorem auth_error_retry_semantics :
    (∀ resp page fuel attempt code,
        resp page attempt = PageAttempt.httpErr code →
        tryPageAux resp page (fuel + 1) attempt = tryPageAux resp page fuel (attempt + 1))
    ∧ (∀ resp page fuel attempt,
        resp page attempt = PageAttempt.urlErr →
        tryPageAux resp page (fuel + 1) attempt = tryPageAux resp page fuel (attempt + 1))
    ∧ (∀ resp resp' maxRetries k, k < maxRetries →
        (∀ i, i ≤ k → resp i = resp' i) →
        resp k = ReqResult.httpErr 401 →
        (∀ i, i < k → reqRetriable (resp i) = true) →
        makeRequestWithRetry resp maxRetries = none
        ∧ makeRequestWithRetry resp' maxRetries = none) := by
  refine ⟨?_, ?_, ?_⟩
  · intro resp page fuel attempt code h
    simp [tryPageAux, h]
  · intro resp page fuel attempt h
    simp [tryPageAux, h]
  · intro resp resp' maxRetries k hk hagree h401 hret
    have main : ∀ fuel attempt, attempt ≤ k → k < attempt + fuel →
        makeRequestAux resp fuel attempt = none
        ∧ makeRequestAux resp' fuel attempt = none := by
      intro fuel
      induction fuel with
      | zero => intro attempt h1 h2; omega
      | succ fuel ih =>
        intro attempt h1 h2
        by_cases he : attempt = k
        · subst he
          have h401' : resp' attempt = ReqResult.httpErr 401 := by
            rw [← hagree attempt le_rfl]; exact h401
          constructor
          · simp [makeRequestAux, h401]
          · simp [makeRequestAux, h401']
        · have hlt : attempt < k := lt_of_le_of_ne h1 he
          have hr := hret attempt hlt
          have heq := hagree attempt (le_of_lt hlt)
          have step := ih (attempt + 1) (by omega) (by omega)
          cases hcase : resp attempt with
          | success d => rw [hcase] at hr; simp [reqRetriable] at hr
          | badStatus code =>
            rw [hcase] at heq
            constructor
            · simp [makeRequestAux, hcase, step.1]
            · simp [makeRequestAux, ← heq, step.2]
          | httpErr code =>
            rw [hcase] at hr heq
            have hcode : ¬ code = 401 := by
              simpa [reqRetriable] using hr
            constructor
            · simp [makeRequestAux, hcase, hcode, step.1]
            · simp [makeRequestAux, ← heq, hcode, step.2]
          | urlErr =>
            rw [hcase] at heq
            constructor
            · simp [makeRequestAux, hcase, step.1]
            · simp [makeRequestAux, ← heq, step.2]
          | otherErr =>
            rw [hcase] at heq
            constructor
            · simp [makeRequestAux, hcase, step.1]
            · simp [makeRequestAux, ← heq, step.2]
    exact main maxRetries 0 (Nat.zero_le k) (by omega)

/-- Witness for C2 (amended): a 401 on the very first attempt of the
user-data request yields `None` for any retry budget of 5, whatever later
attempts would return. -/
theorem auth_error_retry_semantics_witness :
    makeRequestWithRetry (fun _ => ReqResult.httpErr 401) 5 = none
    ∧ makeRequestWithRetry (fun i => if i = 0 then ReqResult.httpErr 401
        else ReqResult.success "late") 5 = none :=
  auth_error_retry_semantics.2.2 (fun _ => ReqResult.httpErr 401)
    (fun i => if i = 0 then ReqResult.httpErr 401 else ReqResult.success "late")
    5 0 (by decide) (fun i hi => by have h0 : i = 0 := by omega
                                    subst h0
                                    rfl) rfl
    (fun i hi => by omega)

/-- If no attempt in the remaining budget succeeds, the inner retry loop
returns `none`. -/
theorem tryPageAux_none (resp : Nat → Nat → PageAttempt) (page : Nat) :
    ∀ fuel attempt,
    (∀ a, attempt ≤ a → a < attempt + fuel → ∀ items, resp page a ≠ .ok items) →
    tryPageAux resp page fuel attempt = none := by
  intro fuel
  induction fuel with
  | zero => intro attempt h; rfl
  | succ fuel ih =>
    intro attempt h
    cases hcase : resp page attempt with
    | ok items => exact absurd hcase (h attempt le_rfl (by omega) items)
    | badStatus code =>
      simp only [tryPageAux, hcase]
      exact ih (attempt + 1) (fun a h1 h2 items => h a (by omega) (by omega) items)
    | httpErr code =>
      simp only [tryPageAux, hcase]
      exact ih (attempt + 1) (fun a h1 h2 items => h a (by omega) (by omega) items)
    | urlErr =>
      simp only [tryPageAux, hcase]
      exact ih (attempt + 1) (fun a h1 h2 items => h a (by omega) (by omega) items)
    | otherErr =>
      simp only [tryPageAux, hcase]
      exact ih (attempt + 1) (fun a h1 h2 items => h a (by omega) (by omega) items)

/-- Every key of the dictionary after an insert was already a key or is
the inserted key. -/
theorem dictInsert_keys_sub (d : Catalog) (k v : String) :
    ∀ x ∈ (dictInsert d k v).map Prod.fst, x ∈ d.map Prod.fst ∨ x = k := by
  intro x hx
  obtain ⟨kv, hkv, rfl⟩ := List.mem_map.mp hx
  unfold dictInsert at hkv
  by_cases hany : d.any (fun p => p.1 == k)
  · rw [if_pos hany] at hkv
    obtain ⟨p, hp, hpe⟩ := List.mem_map.mp hkv
    by_cases hpk : p.1 == k
    · rw [if_pos hpk] at hpe
      right; rw [← hpe]
    · rw [if_neg hpk] at hpe
      left; exact List.mem_map.mpr ⟨p, hp, by rw [hpe]⟩
  · rw [if_neg hany] at hkv
    rcases List.mem_append.mp hkv with h | h
    · left; exact List.mem_map.mpr ⟨kv, h, rfl⟩
    · right
      simp at h
      rw [h]

/-- Every key after inserting a whole page was already a key or is a key
of the page. -/
theorem dictInsertAll_keys_sub (items : List (String × String)) :
    ∀ (d : Catalog) x, x ∈ (dictInsertAll d items).map Prod.fst →
      x ∈ d.map Prod.fst ∨ x ∈ items.map Prod.fst := by
  induction items with
  | nil => intro d x h; left; exact h
  | cons hd tl ih =>
    intro d x h
    have step : dictInsertAll d (hd :: tl) = dictInsertAll (dictInsert d hd.1 hd.2) tl := rfl
    rw [step] at h
    rcases ih (dictInsert d hd.1 hd.2) x h with h' | h'
    · rcases dictInsert_keys_sub d hd.1 hd.2 x h' with h'' | h''
      · left; exact h''
      · right; simp [h'']
    · right; simp [h']

/-- Every key of a fold of pages into the dictionary comes from the
accumulator or from one of the pages. -/
theorem foldl_dictInsertAll_keys_sub (L : List (List (String × String))) :
    ∀ (acc : Catalog) x, x ∈ (L.foldl dictInsertAll acc).map Prod.fst →
      x ∈ acc.map Prod.fst ∨ ∃ l ∈ L, x ∈ l.map Prod.fst := by
  induction L with
  | nil => intro acc x h; left; exact h
  | cons hd tl ih =>
    intro acc x h
    have step : (hd :: tl).foldl dictInsertAll acc = tl.foldl dictInsertAll (dictInsertAll acc hd) := rfl
    rw [step] at h
    rcases ih (dictInsertAll acc hd) x h with h' | h'
    · rcases dictInsertAll_keys_sub hd acc x h' with h'' | h''
      · left; exact h''
      · right; exact ⟨hd, by simp, h''⟩
    · obtain ⟨l, hl, hkl⟩ := h'
      right; exact ⟨l, by simp [hl], hkl⟩

/-- The page loop, when pages `page … P-1` succeed with non-empty data
and page `P` has exhausted its retries, folds exactly those pages into
the accumulator and returns it. -/
theorem fetchPages_exhaust (resp : Nat → Nat → PageAttempt) (maxRetries P : Nat)
    (pages : Nat → List (String × String))
    (hprev : ∀ p, 1 ≤ p → p < P → tryPage resp p maxRetries = some (pages p) ∧ pages p ≠ [])
    (hfailP : tryPage resp P maxRetries = none) :
    ∀ fuel page acc, 1 ≤ page → page ≤ P → P < page + fuel →
      fetchPages resp maxRetries fuel page acc
        = some (((List.range' page (P - page)).map pages).foldl dictInsertAll acc) := by
  intro fuel
  induction fuel with
  | zero => intro page acc h1 h2 h3; omega
  | succ fuel ih =>
    intro page acc h1 h2 h3
    by_cases hP : page = P
    · subst hP
      simp [fetchPages, hfailP]
    · have hlt : page < P := lt_of_le_of_ne h2 hP
      obtain ⟨hsome, hne⟩ := hprev page h1 hlt
      have hne' : (pages page).isEmpty = false := by
        cases hcase : pages page with
        | nil => exact absurd hcase hne
        | cons a l => rfl
      simp only [fetchPages, hsome, hne', Bool.false_eq_true, if_false]
      rw [ih (page + 1) (dictInsertAll acc (pages page)) (by omega) (by omega) (by omega)]
      have hsplit : P - page = (P - (page + 1)) + 1 := by omega
      rw [hsplit, List.range'_succ]
      rfl

/-- C3: when some page exhausts its retry budget without a successful
response, the catalog fetcher stops and returns — as a normal value, not
an error — exactly the mapping accumulated from the prior successful
pages, and every key of the result originates from one of those prior
pages (none from the failed page). -/
theorem fetchData_partial_on_exhausted_retries (resp : Nat → Nat → PageAttempt)
    (maxRetries P fuel : Nat) (pages : Nat → List (String × String))
    (hP : 1 ≤ P)
    (hprev : ∀ p, 1 ≤ p → p < P → tryPage resp p maxRetries = some (pages p) ∧ pages p ≠ [])
    (hfail : ∀ a, a < maxRetries → ∀ items, resp P a ≠ .ok items)
    (hfuel : P ≤ fuel) :
    fetchData resp maxRetries fuel
      = some (((List.range' 1 (P - 1)).map pages).foldl dictInsertAll [])
    ∧ ∀ kv ∈ ((List.range' 1 (P - 1)).map pages).foldl dictInsertAll ([] : Catalog),
        ∃ p, 1 ≤ p ∧ p < P ∧ kv.1 ∈ (pages p).map Prod.fst := by
  have hfailP : tryPage resp P maxRetries = none :=
    tryPageAux_none resp P maxRetries 0 (fun a ha1 ha2 items => hfail a (by omega) items)
  constructor
  · exact fetchPages_exhaust resp maxRetries P pages hprev hfailP fuel 1 [] le_rfl hP (by omega)
  · intro kv hkv
    have hkv' : kv.1 ∈ (((List.range' 1 (P - 1)).map pages).foldl dictInsertAll
        ([] : Catalog)).map Prod.fst := List.mem_map.mpr ⟨kv, hkv, rfl⟩
    rcases foldl_dictInsertAll_keys_sub _ [] kv.1 hkv' with h | ⟨l, hl, hkl⟩
    · simp at h
    · obtain ⟨p, hp, hpe⟩ := List.mem_map.mp hl
      have hpr : 1 ≤ p ∧ p < 1 + (P - 1) := List.mem_range'_1.mp hp
      refine ⟨p, hpr.1, by omega, ?_⟩
      rw [← hpe] at hkl
      exact hkl

/-- A page-response oracle where page 1 succeeds at once and every other
page always fails with a network error. -/
def exhaustResp (page _attempt : Nat) : PageAttempt :=
  if page = 1 then .ok [("alice/repo", "payload")] else .urlErr

/-- Witness for C3: with page 2 exhausting its two retries, the fetch
returns exactly the page-1 entries. -/
theorem fetchData_partial_witness :
    fetchData exhaustResp 2 2
      = some (((List.range' 1 (2 - 1)).map (fun _ => [("alice/repo", "payload")])).foldl
          dictInsertAll []) :=
  (fetchData_partial_on_exhausted_retries exhaustResp 2 2 2
    (fun _ => [("alice/repo", "payload")]) (by decide)
    (fun p h1 h2 => by
      have hp1 : p = 1 := by omega
      subst hp1
      exact ⟨rfl, by decide⟩)
    (fun a ha items => by simp [exhaustResp])
    (by decide)).1

/-- Coercion of a list append into a multiset sum. -/
theorem coeApp {α : Type} (l₁ l₂ : List α) : (↑(l₁ ++ l₂) : Multiset α) = ↑l₁ + ↑l₂ :=
  (Multiset.coe_add l₁ l₂).symm

/-- Coercion of a list cons into a multiset sum. -/
theorem coeCons {α : Type} (a : α) (l : List α) : (↑(a :: l) : Multiset α) = {a} + ↑l := by
  rw [← Multiset.cons_coe, ← Multiset.singleton_add]

/-- The multiset of item ids accounted for by a batch state: the ids
counted as succeeded plus the ids in the ledger. -/
def idMass (st : BatchState) : Multiset ItemId :=
  ↑st.succeeded + ↑(st.ledger.map Prod.fst)

/-- The initial pass adds every processed id, either to the succeeded
side or to the ledger side. -/
theorem initialPass_mass (net : Url → Nat → Bool) (c : Client) :
    ∀ (items : List (ItemId × ItemData)) (st : BatchState),
      idMass (initialPass net c items st) = idMass st + ↑(items.map Prod.fst) := by
  intro items
  induction items with
  | nil => intro st; simp [initialPass]
  | cons hd tl ih =>
    intro st
    obtain ⟨name, d⟩ := hd
    cases hr : (downloadSingleArchive net c name 0).1
    · simp only [initialPass, hr, Bool.false_eq_true, if_false]
      rw [ih]
      simp only [idMass, List.map_append, List.map_cons, List.map_nil, coeApp, coeCons,
        Multiset.coe_nil]
      abel
    · simp only [initialPass, hr, if_true]
      rw [ih]
      simp only [idMass, List.map_append, List.map_cons, List.map_nil, coeApp, coeCons,
        Multiset.coe_nil]
      abel

/-- One wave body adds exactly the ids of the pending snapshot. -/
theorem runWaveAux_mass (net : Url → Nat → Bool) (c : Client)
    (lookup : ItemId → Option ItemData) (wave : Nat) :
    ∀ (pending : List (ItemId × Detail)) (st : BatchState),
      idMass (runWaveAux net c lookup wave pending st)
        = idMass st + ↑(pending.map Prod.fst) := by
  intro pending
  induction pending with
  | nil => intro st; simp [runWaveAux]
  | cons hd tl ih =>
    intro st
    obtain ⟨name, url⟩ := hd
    cases hl : lookup name with
    | none =>
      simp only [runWaveAux, hl]
      rw [ih]
      simp only [idMass, List.map_append, List.map_cons, List.map_nil, coeApp, coeCons,
        Multiset.coe_nil]
      abel
    | some d =>
      cases hr : (downloadSingleArchive net c name wave).1
      · simp only [runWaveAux, hl, hr, Bool.false_eq_true, if_false]
        rw [ih]
        simp only [idMass, List.map_append, List.map_cons, List.map_nil, coeApp, coeCons,
          Multiset.coe_nil]
        abel
      · simp only [runWaveAux, hl, hr, if_true]
        rw [ih]
        simp only [idMass, List.map_append, List.map_cons, List.map_nil, coeApp, coeCons,
          Multiset.coe_nil]
        abel

/-- One retry wave preserves the accounted ids. -/
theorem runWave_mass (net : Url → Nat → Bool) (c : Client)
    (lookup : ItemId → Option ItemData) (wave : Nat) (st : BatchState) :
    idMass (runWave net c lookup wave st) = idMass st := by
  unfold runWave
  rw [runWaveAux_mass]
  simp [idMass]

/-- The wave loop preserves the accounted ids. -/
theorem retryLoop_mass (net : Url → Nat → Bool) (c : Client)
    (lookup : ItemId → Option ItemData) :
    ∀ (fuel wave : Nat) (st : BatchState),
      idMass (retryLoop net c lookup fuel wave st) = idMass st := by
  intro fuel
  induction fuel with
  | zero => intro wave st; rfl
  | succ fuel ih =>
    intro wave st
    by_cases h : st.ledger.isEmpty
    · simp [retryLoop, h]
    · simp only [retryLoop, h, Bool.false_eq_true, if_false]
      rw [ih, runWave_mass]

/-- The whole pipeline accounts exactly the ids of the input batch. -/
theorem downloadItemsAll_mass (net : Url → Nat → Bool) (c : Client)
    (lookup : ItemId → Option ItemData) (maxWaves : Nat)
    (items : List (ItemId × ItemData)) :
    idMass (downloadItemsAll net c lookup maxWaves items) = ↑(items.map Prod.fst) := by
  unfold downloadItemsAll
  by_cases h : (initialPass net c items ⟨[], [], []⟩).ledger.isEmpty
  · simp only [h, if_true]
    rw [initialPass_mass]
    simp [idMass]
  · simp only [h, Bool.false_eq_true, if_false]
    rw [retryLoop_mass, initialPass_mass]
    simp [idMass]

/-- C1: after the orchestrator pass and all retry waves, the number of
ids counted as succeeded plus the number of ledger entries equals the
batch size, and no id is simultaneously counted as succeeded and present
in the ledger. -/
theorem downloadItemsAll_partition (net : Url → Nat → Bool) (c : Client)
    (lookup : ItemId → Option ItemData) (maxWaves : Nat)
    (items : List (ItemId × ItemData))
    (hnodup : (items.map Prod.fst).Nodup) :
    (downloadItemsAll net c lookup maxWaves items).succeeded.length
        + (downloadItemsAll net c lookup maxWaves items).ledger.length
      = items.length
    ∧ ∀ id ∈ (downloadItemsAll net c lookup maxWaves items).succeeded,
        id ∉ (downloadItemsAll net c lookup maxWaves items).ledger.map Prod.fst := by
  have hmass := downloadItemsAll_mass net c lookup maxWaves items
  constructor
  · have hcard := congrArg Multiset.card hmass
    simpa [idMass] using hcard
  · intro id hid
    have hnd : (idMass (downloadItemsAll net c lookup maxWaves items)).Nodup := by
      rw [hmass]
      exact Multiset.coe_nodup.mpr hnodup
    have hdisj := (Multiset.nodup_add.mp hnd).2.2
    intro hmem
    exact Multiset.disjoint_left.mp hdisj (by exact_mod_cast hid) (by exact_mod_cast hmem)

/-- Witness for C1: a two-item batch that fully fails still satisfies the
partition. -/
theorem downloadItemsAll_partition_witness :
    (downloadItemsAll (fun _ _ => false) ⟨none, "alice"⟩ (fun _ => none) 2
        [("alpha", ⟨"ua"⟩), ("beta", ⟨"ub"⟩)]).succeeded.length
      + (downloadItemsAll (fun _ _ => false) ⟨none, "alice"⟩ (fun _ => none) 2
          [("alpha", ⟨"ua"⟩), ("beta", ⟨"ub"⟩)]).ledger.length = 2 :=
  (downloadItemsAll_partition (fun _ _ => false) ⟨none, "alice"⟩ (fun _ => none) 2
    [("alpha", ⟨"ua"⟩), ("beta", ⟨"ub"⟩)] (by decide)).1

/-- A two-item batch whose downloads fail on every URL at every attempt. -/
def permFailItems : List (ItemId × ItemData) := [("alpha", ⟨"ua"⟩), ("beta", ⟨"ub"⟩)]

/-- The item lookup for `permFailItems` (the `github_client.repositories`
dictionary). -/
def permFailLookup (id : ItemId) : Option ItemData :=
  if id = "alpha" then some ⟨"ua"⟩ else if id = "beta" then some ⟨"ub"⟩ else none

/-- C4: driving the retries with two waves on a two-item batch that fails
on every URL of every attempt terminates with both ids in the ledger,
zero successes, and exactly 3 invocations of the download routine per
item (the initial pass plus one per wave); and in general the wave loop
executes at most `fuel = max_waves` passes and performs no pass at all —
leaving the state untouched — once the ledger is empty. -/
theorem retry_waves_spec :
    ((downloadItemsAll (fun _ _ => false) ⟨none, "alice"⟩ permFailLookup 2
        permFailItems).succeeded = []
      ∧ (downloadItemsAll (fun _ _ => false) ⟨none, "alice"⟩ permFailLookup 2
          permFailItems).ledger = [("alpha", "ua"), ("beta", "ub")]
      ∧ (downloadItemsAll (fun _ _ => false) ⟨none, "alice"⟩ permFailLookup 2
          permFailItems).log.countP (fun e => e.1 == "alpha") = 3
      ∧ (downloadItemsAll (fun _ _ => false) ⟨none, "alice"⟩ permFailLookup 2
          permFailItems).log.countP (fun e => e.1 == "beta") = 3)
    ∧ (∀ net c lookup fuel wave st, wavesRun net c lookup fuel wave st ≤ fuel)
    ∧ (∀ net c lookup fuel wave st, st.ledger = [] →
        retryLoop net c lookup fuel wave st = st
        ∧ wavesRun net c lookup fuel wave st = 0) := by
  refine ⟨by decide, ?_, ?_⟩
  · intro net c lookup fuel
    induction fuel with
    | zero => intro wave st; exact Nat.le_refl 0
    | succ fuel ih =>
      intro wave st
      by_cases h : st.ledger.isEmpty
      · simp [wavesRun, h]
      · simp only [wavesRun, h, Bool.false_eq_true, if_false]
        have := ih (wave + 1) (runWave net c lookup wave st)
        omega
  · intro net c lookup fuel wave st h
    cases fuel with
    | zero => exact ⟨rfl, rfl⟩
    | succ fuel =>
      have he : st.ledger.isEmpty = true := by rw [h]; rfl
      constructor
      · simp [retryLoop, he]
      · simp [wavesRun, he]

/-- Witness for C4: the wave loop on an already-empty ledger runs no
waves and returns the state unchanged. -/
theorem retry_waves_spec_witness :
    retryLoop (fun _ _ => false) ⟨none, "alice"⟩ permFailLookup 5 1 ⟨[], [], []⟩
      = ⟨[], [], []⟩ :=
  (retry_waves_spec.2.2 (fun _ _ => false) ⟨none, "alice"⟩ permFailLookup 5 1
    ⟨[], [], []⟩ rfl).1

/-- A time-invariant download oracle under which only the master-branch
(fallback) URL of `alice/repo` succeeds. -/
def fallbackOnlyNet : Url → Nat → Bool :=
  fun u _ => u == repoArchiveUrl ⟨none, "alice"⟩ "alice/repo" "master"

/-- The one-item batch for the re-run counterexample. -/
def rerunItems : List (ItemId × ItemData) := [("repo", ⟨"u"⟩)]

set_option maxRecDepth 100000 in
/-- Counterexample for C8: under the time-invariant oracle
`fallbackOnlyNet`, every run of the batch — in particular the run that
follows a previous run in which all items succeeded (the ledger of that
identical previous run is empty, first conjunct) — performs a
fallback-URL attempt: its log records an invocation that attempted both
the main URL (which fails, third conjunct) and the master fallback URL.
So a re-run over a fully-succeeded set does perform fallback attempts. -/
theorem rerun_fallback_attempt_cex :
    (downloadItemsAll fallbackOnlyNet ⟨none, "alice"⟩ (fun _ => none) 2
        rerunItems).ledger = []
    ∧ (downloadItemsAll fallbackOnlyNet ⟨none, "alice"⟩ (fun _ => none) 2
        rerunItems).log
      = [("repo", [repoArchiveUrl ⟨none, "alice"⟩ "alice/repo" "main",
                   repoArchiveUrl ⟨none, "alice"⟩ "alice/repo" "master"])]
    ∧ fallbackOnlyNet (repoArchiveUrl ⟨none, "alice"⟩ "alice/repo" "main") 0 = false := by
  refine ⟨by decide, by decide, by decide⟩

/-- When every item succeeds on its primary URL, the initial pass moves
all ids to the succeeded side, leaves the ledger empty, and logs exactly
one single-URL invocation per item. -/
theorem initialPass_all_primary (okUrl : Url → Bool) (c : Client) :
    ∀ (items : List (ItemId × ItemData)) (st : BatchState),
      (∀ p ∈ items, okUrl (repoArchiveUrl c (fullRepoName c.login p.1) "main") = true) →
      initialPass (fun u _ => okUrl u) c items st
        = { st with
            succeeded := st.succeeded ++ items.map Prod.fst,
            log := st.log ++ items.map
              (fun p => (p.1, [repoArchiveUrl c (fullRepoName c.login p.1) "main"])) } := by
  intro items
  induction items with
  | nil => intro st h; simp [initialPass]
  | cons hd tl ih =>
    intro st h
    obtain ⟨name, d⟩ := hd
    have hmain := h (name, d) (by simp)
    have hds : downloadSingleArchive (fun u _ => okUrl u) c name 0
        = (true, [repoArchiveUrl c (fullRepoName c.login name) "main"]) := by
      simp [downloadSingleArchive, hmain]
    simp only [initialPass, hds, if_true]
    rw [ih _ (fun p hp => h p (by simp [hp]))]
    simp

/-- C8 (amended): re-running the batch transfer on a set of items that
all succeeded *on their primary URL* performs no fallback attempts —
every logged invocation attempted exactly the single main-branch URL —
and reports zero failures.  (An item that succeeded only via its fallback
URL attempts the fallback again on a re-run, as the counterexample
shows, though still with zero failures.) -/
theorem rerun_primary_success_no_fallback (okUrl : Url → Bool) (c : Client)
    (lookup : ItemId → Option ItemData) (maxWaves : Nat)
    (items : List (ItemId × ItemData))
    (h : ∀ p ∈ items, okUrl (repoArchiveUrl c (fullRepoName c.login p.1) "main") = true) :
    (downloadItemsAll (fun u _ => okUrl u) c lookup maxWaves items).ledger = []
    ∧ ∀ e ∈ (downloadItemsAll (fun u _ => okUrl u) c lookup maxWaves items).log,
        e.2 = [repoArchiveUrl c (fullRepoName c.login e.1) "main"] := by
  unfold downloadItemsAll
  rw [initialPass_all_primary okUrl c items ⟨[], [], []⟩ h]
  simp only [List.nil_append, List.isEmpty_nil, if_true]
  constructor
  · trivial
  · intro e he
    simp only [List.mem_map] at he
    obtain ⟨p, hp, rfl⟩ := he
    rfl

/-- Witness for C8 (amended): with an all-success oracle a one-item batch
re-runs with an empty ledger. -/
theorem rerun_primary_success_witness :
    (downloadItemsAll (fun u _ => (fun _ => true) u) ⟨none, "alice"⟩ (fun _ => none) 2
        rerunItems).ledger = [] :=
  (rerun_primary_success_no_fallback (fun _ => true) ⟨none, "alice"⟩ (fun _ => none) 2
    rerunItems (fun _ _ => rfl)).1

/-- Processing a concatenated snapshot is processing the parts in order. -/
theorem runWaveAux_append (net : Url → Nat → Bool) (c : Client)
    (lookup : ItemId → Option ItemData) (wave : Nat) :
    ∀ (A B : List (ItemId × Detail)) (st : BatchState),
      runWaveAux net c lookup wave (A ++ B) st
        = runWaveAux net c lookup wave B (runWaveAux net c lookup wave A st) := by
  intro A
  induction A with
  | nil => intro B st; rfl
  | cons hd tl ih =>
    intro B st
    obtain ⟨name, url⟩ := hd
    cases hl : lookup name with
    | none =>
      simp only [List.cons_append, runWaveAux, hl, List.append_eq]
      rw [ih]
    | some dd =>
      cases hr : (downloadSingleArchive net c name wave).1
      · simp only [List.cons_append, runWaveAux, hl, hr, Bool.false_eq_true, if_false,
          List.append_eq]
        rw [ih]
      · simp only [List.cons_append, runWaveAux, hl, hr, if_true, List.append_eq]
        rw [ih]

/-- The wave body treats the base ledger as write-only: starting from two
different base ledgers, the same suffix of new failures is appended, and
the succeeded ids and the log do not depend on the base ledger at all. -/
theorem runWaveAux_ledger_congr (net : Url → Nat → Bool) (c : Client)
    (lookup : ItemId → Option ItemData) (wave : Nat) :
    ∀ (pending : List (ItemId × Detail)) (succ : List ItemId)
      (log : List (ItemId × List Url)) (l₁ l₂ : List (ItemId × Detail)),
      ∃ Δ S G,
        runWaveAux net c lookup wave pending ⟨succ, l₁, log⟩ = ⟨S, l₁ ++ Δ, G⟩
        ∧ runWaveAux net c lookup wave pending ⟨succ, l₂, log⟩ = ⟨S, l₂ ++ Δ, G⟩ := by
  intro pending
  induction pending with
  | nil =>
    intro succ log l₁ l₂
    exact ⟨[], succ, log, by simp [runWaveAux], by simp [runWaveAux]⟩
  | cons hd tl ih =>
    intro succ log l₁ l₂
    obtain ⟨name, url⟩ := hd
    cases hl : lookup name with
    | none =>
      obtain ⟨Δ, S, G, h1, h2⟩ := ih succ log (l₁ ++ [(name, url)]) (l₂ ++ [(name, url)])
      refine ⟨(name, url) :: Δ, S, G, ?_, ?_⟩
      · simp only [runWaveAux, hl]
        rw [h1, List.append_assoc]
        rfl
      · simp only [runWaveAux, hl]
        rw [h2, List.append_assoc]
        rfl
    | some dd =>
      cases hr : (downloadSingleArchive net c name wave).1
      · obtain ⟨Δ, S, G, h1, h2⟩ := ih (succ) (log ++ [(name, (downloadSingleArchive net c name wave).2)])
          (l₁ ++ [(name, url)]) (l₂ ++ [(name, url)])
        refine ⟨(name, url) :: Δ, S, G, ?_, ?_⟩
        · simp only [runWaveAux, hl, hr, Bool.false_eq_true, if_false]
          rw [h1, List.append_assoc]
          rfl
        · simp only [runWaveAux, hl, hr, Bool.false_eq_true, if_false]
          rw [h2, List.append_assoc]
          rfl
      · obtain ⟨Δ, S, G, h1, h2⟩ := ih (succ ++ [name])
          (log ++ [(name, (downloadSingleArchive net c name wave).2)]) l₁ l₂
        exact ⟨Δ, S, G, by simp only [runWaveAux, hl, hr, if_true]; rw [h1],
          by simp only [runWaveAux, hl, hr, if_true]; rw [h2]⟩

/-- One wave over a ledger containing a stale entry: the stale pair is
re-emitted in place with its detail unchanged, and the rest of the wave —
succeeded ids, new failures, log — is exactly the wave over the ledger
without the stale entry. -/
theorem runWave_stale (net : Url → Nat → Bool) (c : Client)
    (lookup : ItemId → Option ItemData) (wave : Nat) (s : ItemId) (d : Detail)
    (hstale : lookup s = none) :
    ∀ (succ : List ItemId) (log : List (ItemId × List Url))
      (L₁ L₂ : List (ItemId × Detail)),
      ∃ M₁ M₂ S G,
        runWave net c lookup wave ⟨succ, L₁ ++ (s, d) :: L₂, log⟩
          = ⟨S, M₁ ++ (s, d) :: M₂, G⟩
        ∧ runWave net c lookup wave ⟨succ, L₁ ++ L₂, log⟩ = ⟨S, M₁ ++ M₂, G⟩ := by
  intro succ log L₁ L₂
  have hw : runWave net c lookup wave ⟨succ, L₁ ++ (s, d) :: L₂, log⟩
      = runWaveAux net c lookup wave ((s, d) :: L₂)
          (runWaveAux net c lookup wave L₁ ⟨succ, [], log⟩) := by
    show runWaveAux net c lookup wave (L₁ ++ (s, d) :: L₂) ⟨succ, [], log⟩ = _
    rw [runWaveAux_append]
  have hwo : runWave net c lookup wave ⟨succ, L₁ ++ L₂, log⟩
      = runWaveAux net c lookup wave L₂
          (runWaveAux net c lookup wave L₁ ⟨succ, [], log⟩) := by
    show runWaveAux net c lookup wave (L₁ ++ L₂) ⟨succ, [], log⟩ = _
    rw [runWaveAux_append]
  set mid := runWaveAux net c lookup wave L₁ ⟨succ, [], log⟩ with hmid
  have hstep : runWaveAux net c lookup wave ((s, d) :: L₂) mid
      = runWaveAux net c lookup wave L₂
          ⟨mid.succeeded, mid.ledger ++ [(s, d)], mid.log⟩ := by
    simp only [runWaveAux, hstale]
  obtain ⟨Δ, S, G, h1, h2⟩ := runWaveAux_ledger_congr net c lookup wave L₂
    mid.succeeded mid.log (mid.ledger ++ [(s, d)]) mid.ledger
  refine ⟨mid.ledger, Δ, S, G, ?_, ?_⟩
  · rw [hw, hstep, h1, List.append_assoc]
    rfl
  · rw [hwo]
    have : runWaveAux net c lookup wave L₂ mid
        = runWaveAux net c lookup wave L₂ ⟨mid.succeeded, mid.ledger, mid.log⟩ := rfl
    rw [this, h2]

/-- The wave loop is the identity on a state with an empty ledger. -/
theorem retryLoop_ledger_nil (net : Url → Nat → Bool) (c : Client)
    (lookup : ItemId → Option ItemData) :
    ∀ (fuel wave : Nat) (succ : List ItemId) (log : List (ItemId × List Url)),
      retryLoop net c lookup fuel wave ⟨succ, [], log⟩ = ⟨succ, [], log⟩ := by
  intro fuel wave succ log
  cases fuel with
  | zero => rfl
  | succ fuel => simp [retryLoop]

/-- C9: across the whole retry controller, a ledger entry whose id has no
work-item data in the lookup is kept with its detail string unchanged,
its download routine is never invoked (the instrumentation log of the run
with the stale entry equals the log of the run without it), and its
presence changes nothing for the other failed items: their succeeded ids
and final ledger entries are identical with and without the stale entry,
whatever the wave budget. -/
theorem retry_stale_item_noninterference (net : Url → Nat → Bool) (c : Client)
    (lookup : ItemId → Option ItemData) (s : ItemId) (d : Detail)
    (hstale : lookup s = none) :
    ∀ (fuel wave : Nat) (succ : List ItemId) (log : List (ItemId × List Url))
      (L₁ L₂ : List (ItemId × Detail)),
      ∃ M₁ M₂,
        retryLoop net c lookup fuel wave ⟨succ, L₁ ++ (s, d) :: L₂, log⟩
          = ⟨(retryLoop net c lookup fuel wave ⟨succ, L₁ ++ L₂, log⟩).succeeded,
             M₁ ++ (s, d) :: M₂,
             (retryLoop net c lookup fuel wave ⟨succ, L₁ ++ L₂, log⟩).log⟩
        ∧ (retryLoop net c lookup fuel wave ⟨succ, L₁ ++ L₂, log⟩).ledger = M₁ ++ M₂ := by
  intro fuel
  induction fuel with
  | zero =>
    intro wave succ log L₁ L₂
    exact ⟨L₁, L₂, rfl, rfl⟩
  | succ fuel ih =>
    intro wave succ log L₁ L₂
    have hne : ((⟨succ, L₁ ++ (s, d) :: L₂, log⟩ : BatchState)).ledger.isEmpty = false := by
      cases L₁ with
      | nil => rfl
      | cons a l => rfl
    obtain ⟨M₁', M₂', S, G, hwith, hwo⟩ := runWave_stale net c lookup wave s d hstale succ log L₁ L₂
    have hwithstep : retryLoop net c lookup (fuel + 1) wave ⟨succ, L₁ ++ (s, d) :: L₂, log⟩
        = retryLoop net c lookup fuel (wave + 1) ⟨S, M₁' ++ (s, d) :: M₂', G⟩ := by
      simp only [retryLoop, hne, Bool.false_eq_true, if_false]
      rw [hwith]
    by_cases hempty : L₁ ++ L₂ = []
    · obtain ⟨hL₁, hL₂⟩ := List.append_eq_nil.mp hempty
      subst hL₁
      subst hL₂
      have h0 : (⟨succ, [], log⟩ : BatchState) = ⟨S, M₁' ++ M₂', G⟩ := by
        rw [← hwo]
        rfl
      simp only [BatchState.mk.injEq] at h0
      obtain ⟨hS, hM, hG⟩ := h0
      obtain ⟨hM₁, hM₂⟩ := List.append_eq_nil.mp hM.symm
      subst hS
      subst hG
      subst hM₁
      subst hM₂
      have hr0 : retryLoop net c lookup fuel (wave + 1)
          ⟨succ, ([] : List (ItemId × Detail)) ++ [], log⟩ = ⟨succ, [], log⟩ :=
        retryLoop_ledger_nil net c lookup fuel (wave + 1) succ log
      have e1 : retryLoop net c lookup (fuel + 1) wave
          ⟨succ, ([] : List (ItemId × Detail)) ++ [], log⟩ = ⟨succ, [], log⟩ :=
        retryLoop_ledger_nil net c lookup (fuel + 1) wave succ log
      obtain ⟨M₁, M₂, ih1, ih2⟩ := ih (wave + 1) succ log [] []
      refine ⟨M₁, M₂, ?_, ?_⟩
      · rw [e1, hwithstep, ih1, hr0]
      · rw [e1, ← ih2, hr0]
    · have hne' : ((⟨succ, L₁ ++ L₂, log⟩ : BatchState)).ledger.isEmpty = false := by
        cases hc : L₁ ++ L₂ with
        | nil => exact absurd hc hempty
        | cons a l => simp [hc]
      have hwostep : retryLoop net c lookup (fuel + 1) wave ⟨succ, L₁ ++ L₂, log⟩
          = retryLoop net c lookup fuel (wave + 1) ⟨S, M₁' ++ M₂', G⟩ := by
        simp only [retryLoop, hne', Bool.false_eq_true, if_false]
        rw [hwo]
      obtain ⟨M₁, M₂, ih1, ih2⟩ := ih (wave + 1) S G M₁' M₂'
      exact ⟨M₁, M₂, by rw [hwithstep, hwostep, ih1], by rw [hwostep]; exact ih2⟩

/-- Witness for C9: a lone stale ledger entry survives one retry wave
untouched, with nothing logged and nothing succeeded. -/
theorem retry_stale_item_witness :
    retryLoop (fun _ _ => false) ⟨none, "alice"⟩ (fun _ => none) 1 1
      ⟨[], [("ghost", "detail")], []⟩ = ⟨[], [("ghost", "detail")], []⟩ := by
  obtain ⟨M₁, M₂, h1, h2⟩ := retry_stale_item_noninterference (fun _ _ => false)
    ⟨none, "alice"⟩ (fun _ => none) "ghost" "detail" rfl 1 1 [] [] [] []
  have h2' : ([] : List (ItemId × Detail)) = M₁ ++ M₂ := h2
  obtain ⟨hM₁, hM₂⟩ := List.append_eq_nil.mp h2'.symm
  subst hM₁
  subst hM₂
  exact h1

end GithubBackup
